import Mathlib

/-!
# Verification of the Torgal streaming slide-matching core

Shallow embedding of the Python sources under `src/python/` (notably
`audio.py`, `slides.py`, `triggers.py`, `server.py`) together with proofs
settling the frozen claims about them.

Conventions used throughout:

* Python strings are modelled as `List Char` (or `String`, unpacked with
  `String.data`).  Only the ASCII fragment of `str.lower` / `str.strip`
  is modelled, matching the repository's inputs (lower-cased ASR output).
* Machine floats that only flow through comparisons and exact arithmetic
  are modelled as `ℚ`.  The black-box collaborators (the Whisper ASR and
  the sentence-embedding model) as well as the irrational cosine /
  lexical-boost pipeline that produces the *boosted* similarity vector
  `sims_used` are supplied as oracle arguments, exactly at the point
  where `SlideMatcher.check` (slides.py line 300) starts its pure
  decision logic.
* Python `int(...)` truncation, negative-index slicing `l[-k:]`, and
  `max(xs, key=f)` (first maximum wins) are modelled by dedicated helper
  functions whose names start with `py`.
-/

namespace Torgal

/-! ## Python string primitives -/

/-- The ASCII whitespace characters stripped by Python's `str.strip()`. -/
def pyIsSpace (c : Char) : Bool :=
  c = ' ' ∨ c = '\t' ∨ c = '\n' ∨ c = '\r' ∨ c = '\x0b' ∨ c = '\x0c'

/-- Python `str.strip()`: drop whitespace from both ends. -/
def pyStrip (s : List Char) : List Char :=
  ((s.dropWhile pyIsSpace).reverse.dropWhile pyIsSpace).reverse

/-- Python `str.lower()` on one character (ASCII fragment). -/
def pyLower (c : Char) : Char := c.toLower

/-- `w.lower().strip()` as applied by `_fuzzy_match` (audio.py line 51). -/
def normWord (w : String) : List Char :=
  pyStrip (w.data.map pyLower)

/-!
Exact rational arithmetic.  Mathlib's `+`/`-`/`*`/`/` on `ℚ` resolve to
kernel-irreducible instances, so the embedding uses the following
`mkRat`-based operations (proved equal to the standard ones below);
this keeps every definition evaluable by `decide` on concrete inputs.
-/

/-- Addition on `ℚ` by cross-multiplication. -/
def qadd (a b : ℚ) : ℚ := mkRat (a.num * b.den + b.num * a.den) (a.den * b.den)

/-- Subtraction on `ℚ` by cross-multiplication. -/
def qsub (a b : ℚ) : ℚ := mkRat (a.num * b.den - b.num * a.den) (a.den * b.den)

/-- Multiplication on `ℚ`. -/
def qmul (a b : ℚ) : ℚ := mkRat (a.num * b.num) (a.den * b.den)

/-- Division on `ℚ` (yields 0 when the divisor is 0, as in Mathlib). -/
def qdiv (a b : ℚ) : ℚ := Rat.divInt (a.num * b.den) (a.den * b.num)

/-- Python `int(q)` : truncation toward zero. -/
def pyInt (q : ℚ) : Int :=
  if 0 ≤ q then q.floor else q.ceil

/-- Python slicing `l[-k:]` for `k ≥ 0`.  Note the `-0` quirk: `l[-0:]`
is `l[0:]`, i.e. the whole list. -/
def pyTakeLast {α : Type} (l : List α) (k : Nat) : List α :=
  if k = 0 then l else l.drop (l.length - k)

/-- Python `max(x :: xs, key := f)` : the first element attaining the
maximum key wins ties. -/
def pyMaxKey (l : List Nat) (f : Nat → ℚ) : Nat :=
  match l with
  | [] => 0
  | x :: xs => xs.foldl (fun b i => if f i > f b then i else b) x

/-! ## `_fuzzy_match` (audio.py lines 49–66) -/

/-- `sum(c1 != c2 for c1, c2 in zip(w1, w2))`. -/
def hammingZip : List Char → List Char → Nat
  | x :: xs, y :: ys => (if x = y then 0 else 1) + hammingZip xs ys
  | _, _ => 0

/-- Body of `_fuzzy_match` after the `lower().strip()` normalisation.
`m` is `FILTER.fuzzy_match_min_len` (spec default 3; the `FILTER` config
object is not under `src/`, so the bound is kept as a parameter). -/
def fuzzyCore (m : Nat) (w1 w2 : List Char) : Bool :=
  if w1 = w2 then true
  else if w1.length < m ∨ w2.length < m then false
  else if min w1.length w2.length ≥ m ∧
      w1.take (min w1.length w2.length) = w2.take (min w1.length w2.length) then true
  else if ((w1.length : Int) - (w2.length : Int)).natAbs ≤ 1 ∧ w1.length ≥ m + 1 then
    hammingZip w1 w2 ≤ 1
  else false

/-- `_fuzzy_match(w1, w2)` from audio.py. -/
def fuzzyMatch (m : Nat) (a b : String) : Bool :=
  fuzzyCore m (normWord a) (normWord b)

/-! ## `Transcriber` (audio.py lines 69–208)

The Whisper model is a black box; `process` therefore takes the flattened
word-hypothesis list produced from `model.transcribe(buffer)` as an
oracle function `asr` of the PCM buffer.  The `FILTER` configuration
object read by `_is_garbage` / `_filter_words` is not among the sources
under `src/` (src/python/config.py has no `FILTER`), so its fields are
carried in an explicit `FilterCfg` record (spec defaults:
`fuzzy_match_min_len = 3`). -/

/-- A word hypothesis `{"word": w.word.strip(), "end": w.end}`
(audio.py line 135). -/
structure WordHyp where
  word : String
  end_s : ℚ
  deriving DecidableEq, Repr

/-- Fields of the `FILTER` config object used by audio.py. -/
structure FilterCfg where
  filter_punctuation : Bool
  min_word_length : Nat
  dedupe_consecutive : Bool
  fuzzy_match_min_len : Nat
  deriving DecidableEq, Repr

/-- `[a-zA-Z]` (the `_GARBAGE_PATTERN` regex matches iff no such char). -/
def isAsciiLetter (c : Char) : Bool :=
  ('a' ≤ c ∧ c ≤ 'z') ∨ ('A' ≤ c ∧ c ≤ 'Z')

/-- `_is_garbage` (audio.py lines 17–31). -/
def isGarbage (cfg : FilterCfg) (word : String) : Bool :=
  let w := (pyStrip word.data).map pyLower
  if w = [] then true
  else if cfg.filter_punctuation ∧ w.all (fun c => ¬ isAsciiLetter c) then true
  else if w.length < cfg.min_word_length ∧ w ≠ ['i'] ∧ w ≠ ['a'] then true
  else match w with
    | c :: _ => c ∈ ['-', '.', ',', ';', ':', '!', '?']
    | [] => false

/-- `w.lower()` on a whole string. -/
def strLower (w : String) : String := ⟨w.data.map pyLower⟩

/-- Loop body of `_filter_words` (audio.py lines 34–46); the first
argument is the running `last_word` (lower-cased, `none` initially). -/
def filterWordsAux (cfg : FilterCfg) : Option String → List String → List String
  | _, [] => []
  | last, w :: rest =>
    if isGarbage cfg w then filterWordsAux cfg last rest
    else if cfg.dedupe_consecutive ∧ some (strLower w) = last then
      filterWordsAux cfg last rest
    else w :: filterWordsAux cfg (some (strLower w)) rest

/-- `_filter_words(words)`. -/
def filterWords (cfg : FilterCfg) (ws : List String) : List String :=
  filterWordsAux cfg none ws

/-- Length of the agreeing prefix of the previous and current hypothesis
lists (the LocalAgreement loop, audio.py lines 139–144). -/
def agreeCount (m : Nat) : List WordHyp → List WordHyp → Nat
  | l :: ls, c :: cs => if fuzzyMatch m l.word c.word then agreeCount m ls cs + 1 else 0
  | _, _ => 0

/-- Mutable state of a `Transcriber` (batch-mode fields, hotwords and
`_confirmed_count` are untouched by the modelled operations and
omitted). -/
structure TState where
  sample_rate : Nat
  buffer_seconds : Nat
  buffer : List ℚ
  last_words : List WordHyp

/-- `Transcriber.add_audio` (audio.py lines 92–98): decode int16 samples
(each divided by 32768), append, and keep the last
`buffer_seconds * sample_rate` samples when over the cap. -/
def addAudio (st : TState) (pcm : List Int) : TState :=
  let samples := pcm.map (fun k => qdiv (mkRat k 1) (mkRat 32768 1))
  let buf := st.buffer ++ samples
  let maxSamples := st.buffer_seconds * st.sample_rate
  if buf.length > maxSamples then { st with buffer := pyTakeLast buf maxSamples }
  else { st with buffer := buf }

/-- The buffer-trimming step of `Transcriber.process` (audio.py lines
146–150): when at least one word was confirmed (`n ≠ 0`) and its end
time is truthy, drop `int(end * sample_rate)` samples from the front,
provided `0 < trim < len(buffer)`. -/
def processBuffer (st : TState) (words : List WordHyp) (n : Nat) : List ℚ :=
  if n ≠ 0 then
    match words.get? (n - 1) with
    | some w =>
      if w.end_s ≠ 0 then
        if 0 < pyInt (qmul w.end_s (mkRat st.sample_rate 1)) ∧
            pyInt (qmul w.end_s (mkRat st.sample_rate 1)) < st.buffer.length then
          st.buffer.drop (pyInt (qmul w.end_s (mkRat st.sample_rate 1))).toNat
        else st.buffer
      else st.buffer
    | none => st.buffer
  else st.buffer

/-- `Transcriber.process` (audio.py lines 110–159).  `asr` is the
black-box transcription oracle. -/
def process (cfg : FilterCfg) (asr : List ℚ → List WordHyp) (st : TState) :
    (List String × List String) × TState :=
  if st.buffer.length < st.sample_rate then (([], []), st)
  else
    let words := asr st.buffer
    let n := agreeCount cfg.fuzzy_match_min_len st.last_words words
    let confirmed := (words.take n).map (fun w => w.word)
    let partialWords := (words.drop n).map (fun w => w.word)
    ((filterWords cfg confirmed, filterWords cfg partialWords),
     { st with buffer := processBuffer st words n, last_words := words })

/-! ## `SlideMatcher` (slides.py lines 165–574)

The per-slide embeddings, the cosine similarities, the keyword/title
lexical boosts and the sentence-level uplift (slides.py lines 236–298)
all pass through the black-box embedding model and square roots, so the
*boosted* similarity vector `sims_used` is supplied as the oracle
argument `sims : Nat → ℚ` and encoding success as the flag `encOk`; the
decision logic from line 300 onward is embedded verbatim.  Matcher
attributes fixed at construction are collected in `MParams`
(`threshold`/`diff` already hold the effective Q&A overrides applied by
`__init__`); the diagnostic `options`/`keywords`/`phrases` entries of the
evaluation payload are presentation strings no claim refers to and are
omitted from `EvalPayload`. -/

/-- Constructor-time attributes of a `SlideMatcher`.  `titles i` is
`slides[i].title`; `numSlides = len(slides)` (the constructor rejects an
empty deck). -/
structure MParams where
  numSlides : Nat
  titles : Nat → String
  threshold : ℚ
  cooldown : Nat
  diff : ℚ
  forward_bias : ℚ
  back_bias : ℚ
  stay_bias : ℚ
  qa_mode : Bool
  allow_non_adjacent : Bool
  non_adjacent_threshold : ℚ
  non_adjacent_boost : ℚ

/-- Mutable matcher state: `self.current` and `self.words_since`. -/
structure MState where
  current : Nat
  words_since : Int
  deriving DecidableEq, Repr

/-- `next_slide = current + 1 if current + 1 < len(slides) else current`
(slides.py line 248). -/
def nextSlide (p : MParams) (cur : Nat) : Nat :=
  if cur + 1 < p.numSlides then cur + 1 else cur

/-- `prev_slide = current - 1 if current > 0 else current` (line 249). -/
def prevSlide (cur : Nat) : Nat :=
  if cur > 0 then cur - 1 else cur

/-- `int(np.argmax(sims_used))` over indices `0 .. n-1`: the first index
attaining the maximum (line 300). -/
def argmaxQ (n : Nat) (sims : Nat → ℚ) : Nat :=
  (List.range n).foldl (fun b i => if sims i > sims b then i else b) 0

/-- The candidate list built on slides.py lines 304–312 (list order
matters for the tie-breaking of `max(candidates, key=...)`). -/
def candidatesOf (p : MParams) (cur : Nat) : List Nat :=
  if p.qa_mode then List.range p.numSlides
  else [cur] ++ (if nextSlide p cur ≠ cur then [nextSlide p cur] else [])
             ++ (if prevSlide cur ≠ cur then [prevSlide cur] else [])

/-- `local_best` (lines 306 and 313). -/
def localBestOf (p : MParams) (sims : Nat → ℚ) (cur : Nat) : Nat :=
  if p.qa_mode then argmaxQ p.numSlides sims
  else pyMaxKey (candidatesOf p cur) sims

/-- Target after the forward-bias rule (slides.py lines 325–330):
starting from `local_best`, prefer `next_slide` when
`sims_used[next_slide] >= sims_used[local_best] - forward_bias`. -/
def targetAfterForward (p : MParams) (sims : Nat → ℚ) (cur : Nat) : Nat :=
  if nextSlide p cur ≠ cur ∧
      sims (nextSlide p cur) ≥ qsub (sims (localBestOf p sims cur)) p.forward_bias then
    nextSlide p cur
  else localBestOf p sims cur

/-- Target after the back-bias rule (lines 332–335): prefer `prev_slide`
when the target still equals `local_best` and
`sims_used[prev_slide] >= sims_used[local_best] - back_bias`. -/
def targetAfterBack (p : MParams) (sims : Nat → ℚ) (cur : Nat) : Nat :=
  if prevSlide cur ≠ cur ∧ targetAfterForward p sims cur = localBestOf p sims cur ∧
      sims (prevSlide cur) ≥ qsub (sims (localBestOf p sims cur)) p.back_bias then
    prevSlide cur
  else targetAfterForward p sims cur

/-- The final `target` (lines 321–343): global best in Q&A mode,
otherwise the biased local choice with the optional non-adjacent
override. -/
def targetOf (p : MParams) (sims : Nat → ℚ) (cur : Nat) : Nat :=
  if p.qa_mode then argmaxQ p.numSlides sims
  else if p.allow_non_adjacent ∧ argmaxQ p.numSlides sims ∉ candidatesOf p cur ∧
      sims (argmaxQ p.numSlides sims) ≥
        max (qadd (sims (localBestOf p sims cur)) p.non_adjacent_boost) p.non_adjacent_threshold then
    argmaxQ p.numSlides sims
  else targetAfterBack p sims cur

/-- `required_diff = self.diff if self.qa_mode else max(self.diff,
self.stay_bias)` (line 347). -/
def requiredDiffOf (p : MParams) : ℚ :=
  if p.qa_mode then p.diff else max p.diff p.stay_bias

/-- Cooldown check (slides.py lines 229–231). -/
def cooldownBlockedOf (p : MParams) (ws : Int) (ignoreCooldown : Bool) : Bool :=
  !ignoreCooldown && decide (ws < (p.cooldown : Int))

/-- The `would_transition` condition (lines 359–364). -/
def wouldTransitionOf (p : MParams) (sims : Nat → ℚ) (cur : Nat) (ws : Int)
    (ignoreCooldown : Bool) : Bool :=
  decide (targetOf p sims cur ≠ cur) &&
  decide (sims (targetOf p sims cur) ≥ p.threshold) &&
  decide (qsub (sims (targetOf p sims cur)) (sims cur) ≥ requiredDiffOf p) &&
  !(cooldownBlockedOf p ws ignoreCooldown)

/-- `intent` (lines 349–357 and 367–368). -/
def intentOf (p : MParams) (sims : Nat → ℚ) (cur : Nat) (ws : Int)
    (ignoreCooldown : Bool) : String :=
  let target := targetOf p sims cur
  let base := if target > cur then "forward" else if target < cur then "backward" else "stay"
  let withJump :=
    if ¬(target = prevSlide cur ∨ target = cur ∨ target = nextSlide p cur) then "jump"
    else base
  if wouldTransitionOf p sims cur ws ignoreCooldown then withJump else "stay"

/-- The numeric/boolean part of the `eval` payload (slides.py lines
504–529). -/
structure EvalPayload where
  current_slide : Nat
  prev_slide : Nat
  next_slide : Nat
  target_slide : Nat
  best_slide : Nat
  prev_sim : ℚ
  current_sim : ℚ
  next_sim : ℚ
  target_sim : ℚ
  best_sim : ℚ
  threshold : ℚ
  required_diff : ℚ
  diff : ℚ
  intent : String
  would_transition : Bool
  qa_mode : Bool
  allow_non_adjacent : Bool
  non_adjacent : Bool
  cooldown_blocked : Bool
  cooldown_words : Nat
  words_since : Int
  deriving DecidableEq, Repr

/-- The `slide_transition` payload built on lines 536–543. -/
structure TransitionPayload where
  from_slide : Nat
  to_slide : Nat
  confidence : ℚ
  slide_title : String
  intent : String
  deriving DecidableEq, Repr

/-- The dictionary returned by `check`: an `eval` entry and, on a
transition, a `transition` entry. -/
structure CheckResult where
  eval : EvalPayload
  transition : Option TransitionPayload
  deriving DecidableEq, Repr

/-- `SlideMatcher.check(text, ignore_cooldown)` (slides.py lines
223–547).  Returns the optional result dictionary together with the
matcher state after the call. -/
def check (p : MParams) (encOk : Bool) (sims : Nat → ℚ) (st : MState)
    (text : List Char) (ignoreCooldown : Bool) : Option CheckResult × MState :=
  if pyStrip text = [] then (none, st)
  else if encOk = false then (none, st)
  else
    let cur := st.current
    let target := targetOf p sims cur
    let evalp : EvalPayload :=
      { current_slide := cur
        prev_slide := prevSlide cur
        next_slide := nextSlide p cur
        target_slide := target
        best_slide := argmaxQ p.numSlides sims
        prev_sim := sims (prevSlide cur)
        current_sim := sims cur
        next_sim := sims (nextSlide p cur)
        target_sim := sims target
        best_sim := sims (argmaxQ p.numSlides sims)
        threshold := p.threshold
        required_diff := requiredDiffOf p
        diff := qsub (sims target) (sims cur)
        intent := intentOf p sims cur st.words_since ignoreCooldown
        would_transition := wouldTransitionOf p sims cur st.words_since ignoreCooldown
        qa_mode := p.qa_mode
        allow_non_adjacent := p.allow_non_adjacent
        non_adjacent := ¬(target = prevSlide cur ∨ target = cur ∨ target = nextSlide p cur)
        cooldown_blocked := cooldownBlockedOf p st.words_since ignoreCooldown
        cooldown_words := p.cooldown
        words_since := st.words_since }
    if wouldTransitionOf p sims cur st.words_since ignoreCooldown then
      (some { eval := evalp
              transition := some
                { from_slide := cur
                  to_slide := target
                  confidence := sims target
                  slide_title := p.titles target
                  intent := intentOf p sims cur st.words_since ignoreCooldown } },
       { current := target, words_since := 0 })
    else
      (some { eval := evalp, transition := none }, st)

/-- `SlideMatcher.goto(index)` (slides.py lines 552–555); the index is an
`Int` because voice-command targets may be negative. -/
def mgoto (p : MParams) (st : MState) (i : Int) : MState :=
  if 0 ≤ i ∧ i < p.numSlides then { current := i.toNat, words_since := 0 } else st

/-- `SlideMatcher.reset()` (lines 557–559). -/
def mreset : MState := { current := 0, words_since := 0 }

/-- The operations that touch matcher state. -/
inductive MOp where
  | check (encOk : Bool) (sims : Nat → ℚ) (text : List Char) (ignoreCooldown : Bool)
  | addWords (n : Nat)
  | goto (i : Int)
  | reset

/-- One state step.  `add_words` receives `len(words)`, a natural
number, matching its only call site (server.py line 232). -/
def mstep (p : MParams) (st : MState) : MOp → MState
  | .check encOk sims text ic => (check p encOk sims st text ic).2
  | .addWords n => { st with words_since := st.words_since + n }
  | .goto i => mgoto p st i
  | .reset => mreset

/-- Run a sequence of operations from the constructor state
(`current = 0`, `words_since = 0`, slides.py lines 217–218). -/
def mrun (p : MParams) (ops : List MOp) : MState :=
  ops.foldl (mstep p) { current := 0, words_since := 0 }

/-- Deck parameters for the C3 witness (cooldown of 10 words). -/
def pC3 : MParams :=
  { numSlides := 2, titles := fun _ => "", threshold := mkRat 1 2, cooldown := 10,
    diff := mkRat 1 10, forward_bias := mkRat 1 25, back_bias := mkRat 3 100,
    stay_bias := mkRat 3 100, qa_mode := false, allow_non_adjacent := false,
    non_adjacent_threshold := mkRat 3 4, non_adjacent_boost := mkRat 3 20 }

/-- Boosted similarity oracle for the C3 witness. -/
def simsC3 : Nat → ℚ := fun i => if i = 1 then mkRat 9 10 else 0

/-! ## Trigger detection (triggers.py) and `_try_trigger` (server.py)

The seven patterns of `_PATTERNS` use a small regex fragment: literals,
single-character classes under `*`/`+`, one `(\d+)` capture group,
alternation, optional groups and `\b` word boundaries, all applied with
`search` on a `^`-anchored pattern (hence: match at the start).  The
fragment is embedded as the `RE` type with a backtracking matcher in
continuation-passing style that mirrors Python's leftmost/greedy
strategy. -/

/-- `TriggerAction` (triggers.py lines 11–16). -/
inductive TriggerAction where
  | next | prev | goto | first | last
  deriving DecidableEq, Repr

/-- `Trigger` (triggers.py lines 19–22). -/
structure Trigger where
  action : TriggerAction
  target : Option Int := none
  deriving DecidableEq, Repr

/-- Python regex `\w` for ASCII input: `[a-zA-Z0-9_]`. -/
def isWordChar (c : Char) : Bool := c.isAlpha || c.isDigit || c = '_'

/-- `\s` (ASCII fragment). -/
def wsChars : List Char := [' ', '\t', '\n', '\r', '\x0b', '\x0c']

/-- The separator class `(?:\s|[.,;:])`. -/
def sepChars : List Char := wsChars ++ ['.', ',', ';', ':']

/-- `\d`. -/
def digitChars : List Char := ['0', '1', '2', '3', '4', '5', '6', '7', '8', '9']

/-- The regex fragment used by `_PATTERNS`. -/
inductive RE where
  | lit : List Char → RE
  | starC : List Char → RE
  | plusC : List Char → RE
  | digits : RE
  | seq : RE → RE → RE
  | alt : RE → RE → RE
  | opt : RE → RE
  | wb : RE

/-- First-success choice on `Option`. -/
def obOr {α : Type} (a b : Option α) : Option α :=
  match a with
  | some v => some v
  | none => b

/-- Continuations receive the previous character (for `\b`), the rest of
the input, and the capture of the `(\d+)` group if one matched. -/
def RECont : Type := Option Char → List Char → Option (List Char) → Option (Option (List Char))

/-- Is the optional character a word character (missing = no). -/
def isWordB : Option Char → Bool
  | some c => isWordChar c
  | none => false

/-- Greedy, backtracking match of `[cs]*`: consume as many characters of
the class as possible, retrying shorter matches on failure. -/
def starRun (cs : List Char) : Option Char → List Char → Option (List Char) → RECont →
    Option (Option (List Char))
  | prev, [], cap, k => k prev [] cap
  | prev, c :: rest, cap, k =>
    if c ∈ cs then obOr (starRun cs (some c) rest cap k) (k prev (c :: rest) cap)
    else k prev (c :: rest) cap

/-- Greedy, backtracking match of `(\d+)`, capturing the digits consumed
(`acc` is the reversed prefix matched so far). -/
def digitsRun (acc : List Char) : Option Char → List Char → RECont →
    Option (Option (List Char))
  | prev, [], k => if acc.isEmpty then none else k prev [] (some acc.reverse)
  | prev, c :: rest, k =>
    if c ∈ digitChars then
      obOr (digitsRun (c :: acc) (some c) rest k)
        (if acc.isEmpty then none else k prev (c :: rest) (some acc.reverse))
    else if acc.isEmpty then none else k prev (c :: rest) (some acc.reverse)

/-- The backtracking matcher.  `prev` is the character just before the
current position (for `\b`), `cap` the capture threaded through. -/
def reMatch : RE → Option Char → List Char → Option (List Char) → RECont →
    Option (Option (List Char))
  | .lit w, prev, s, cap, k =>
    if s.take w.length = w then
      k (if w.isEmpty then prev else w.getLast?) (s.drop w.length) cap
    else none
  | .starC cs, prev, s, cap, k => starRun cs prev s cap k
  | .plusC cs, prev, s, cap, k =>
    match s with
    | [] => none
    | c :: rest => if c ∈ cs then starRun cs (some c) rest cap k else none
  | .digits, prev, s, _, k => digitsRun [] prev s k
  | .seq r1 r2, prev, s, cap, k =>
    reMatch r1 prev s cap (fun p' s' c' => reMatch r2 p' s' c' k)
  | .alt r1 r2, prev, s, cap, k =>
    obOr (reMatch r1 prev s cap k) (reMatch r2 prev s cap k)
  | .opt r, prev, s, cap, k => obOr (reMatch r prev s cap k) (k prev s cap)
  | .wb, prev, s, cap, k =>
    if isWordB prev ≠ isWordB s.head? then k prev s cap else none

/-- Sequencing of a pattern list (left-nested; `seq` is associative for
the backtracking matcher). -/
def rSeq : List RE → RE
  | [] => .lit []
  | r :: rest => rest.foldl RE.seq r

/-- Alternation of a non-empty pattern list (first alternative wins). -/
def rAlt : List RE → RE
  | [] => .lit []
  | r :: rest => rest.foldl RE.alt r

/-- Literal from a string. -/
def rlit (s : String) : RE := .lit s.data

/-- `word\b\s*`, one polite-prefix alternative. -/
def politeWord (w : String) : RE := rSeq [rlit w, .wb, .starC wsChars]

/-- `let\'?s\b\s*`. -/
def letsRE : RE :=
  rSeq [rlit "let", .opt (rlit "'"), rlit "s", .wb, .starC wsChars]

/-- `_PREFIX` (triggers.py line 27). -/
def prefixRE : RE :=
  rSeq [.starC wsChars,
        .opt (politeWord "please"),
        .opt (rAlt [politeWord "can you", politeWord "could you",
                    politeWord "would you", letsRE, politeWord "we should",
                    politeWord "i want to"])]

/-- `_SEP` (line 28). -/
def sepRE : RE := .plusC sepChars

/-- `_SEP_OPT` (line 29). -/
def sepOptRE : RE := .starC sepChars

/-- Pattern 1: go/move/advance/switch [to] [the] next slide/one → Next. -/
def patNext : RE :=
  rSeq [prefixRE, rAlt [rlit "go", rlit "move", rlit "advance", rlit "switch"],
        sepRE, .opt (rSeq [rlit "to", sepOptRE]), .opt (rSeq [rlit "the", sepOptRE]),
        rlit "next", sepOptRE, rAlt [rlit "slide", rlit "one"], .wb]

/-- Pattern 2: go/move/switch back [a] slide/one → Prev. -/
def patBack : RE :=
  rSeq [prefixRE, rAlt [rlit "go", rlit "move", rlit "switch"], sepRE,
        rlit "back", sepOptRE, .opt (rSeq [rlit "a", sepOptRE]),
        rAlt [rlit "slide", rlit "one"], .wb]

/-- Pattern 3: previous/prior slide → Prev. -/
def patPrev : RE :=
  rSeq [prefixRE, rAlt [rlit "previous", rlit "prior"], sepRE, rlit "slide", .wb]

/-- Pattern 4: last slide → Last. -/
def patLast : RE := rSeq [prefixRE, rlit "last", sepRE, rlit "slide", .wb]

/-- Pattern 5: first slide → First. -/
def patFirst : RE := rSeq [prefixRE, rlit "first", sepRE, rlit "slide", .wb]

/-- Pattern 6: go/jump/skip [to] [slide] (\d+) → Goto. -/
def patGoto1 : RE :=
  rSeq [prefixRE, rAlt [rlit "go", rlit "jump", rlit "skip"], sepRE,
        .opt (rSeq [rlit "to", sepOptRE]), .opt (rSeq [rlit "slide", sepOptRE]),
        .digits, .wb]

/-- Pattern 7: slide (\d+) → Goto. -/
def patGoto2 : RE := rSeq [prefixRE, rlit "slide", sepRE, .digits, .wb]

/-- `_PATTERNS` in order (triggers.py lines 31–40). -/
def trigPatterns : List (RE × TriggerAction) :=
  [(patNext, .next), (patBack, .prev), (patPrev, .prev), (patLast, .last),
   (patFirst, .first), (patGoto1, .goto), (patGoto2, .goto)]

/-- `pattern.search(text)` for a `^`-anchored pattern: match at the
start; `some cap` on success. -/
def reSearchStart (r : RE) (s : List Char) : Option (Option (List Char)) :=
  reMatch r none s none (fun _ _ cap => some cap)

/-- `int(g)` for a digit string. -/
def digitsToNat (g : List Char) : Nat :=
  g.foldl (fun n c => 10 * n + (c.toNat - '0'.toNat)) 0

/-- The pattern loop of `detect_trigger` (triggers.py lines 56–70),
including the `groups()` scan and the `continue` on a missing number. -/
def detectLoop : List (RE × TriggerAction) → List Char → Option Trigger
  | [], _ => none
  | (r, act) :: rest, t =>
    match reSearchStart r t with
    | none => detectLoop rest t
    | some cap =>
      if act = TriggerAction.goto then
        match cap with
        | some g =>
          if g ≠ [] ∧ g.all Char.isDigit then
            some { action := act, target := some ((digitsToNat g : Int) - 1) }
          else detectLoop rest t
        | none => detectLoop rest t
      else some { action := act, target := none }

/-- `detect_trigger(text)` (triggers.py lines 43–72). -/
def detectTrigger (text : String) : Option Trigger :=
  let t := pyStrip (text.data.map pyLower)
  if t.length < 3 then none
  else detectLoop trigPatterns t

/-- Trigger-debounce configuration (config.py values are parameters). -/
structure TrigCfg where
  trigger_cooldown_ms : ℚ
  trigger_min_words_between : Int
  deriving DecidableEq, Repr

/-- `CommandState` (server.py): the last accepted-command timestamp. -/
structure CommandState where
  last_ts : ℚ
  deriving DecidableEq, Repr

/-- A `slide_transition` event emitted by `_try_trigger` via `send_type`
(no `slide_title` field on this path). -/
structure TriggerEvent where
  from_slide : Nat
  to_slide : Nat
  confidence : ℚ
  intent : String
  deriving DecidableEq, Repr

/-- `_try_trigger` (server.py lines 164–221).  `now` is the
`time.monotonic()` reading; the result carries the success flag, the
matcher state, the text window, the command state and the emitted
events. -/
def tryTrigger (cfg : TrigCfg) (p : MParams) (now : ℚ) (text : String)
    (st : MState) (window : List String) (cs : CommandState)
    (allowed : List TriggerAction) :
    Bool × MState × List String × CommandState × List TriggerEvent :=
  if text = "" then (false, st, window, cs, [])
  else
    match detectTrigger text with
    | none => (false, st, window, cs, [])
    | some trig =>
      if trig.action ∉ allowed then (false, st, window, cs, [])
      else if qsub now cs.last_ts < qdiv cfg.trigger_cooldown_ms (mkRat 1000 1) then
        (false, st, window, cs, [])
      else if (trig.action = .next ∨ trig.action = .prev) ∧
          st.words_since < cfg.trigger_min_words_between then
        (false, st, window, cs, [])
      else
        match trig.action with
        | .next =>
          if (st.current : Int) ≥ (p.numSlides : Int) - 1 then (false, st, window, cs, [])
          else
            (true, mgoto p st ((st.current : Int) + 1), [], { last_ts := now },
             [{ from_slide := st.current,
                to_slide := (mgoto p st ((st.current : Int) + 1)).current,
                confidence := 1, intent := "Voice: Next" }])
        | .prev =>
          if (st.current : Int) ≤ 0 then (false, st, window, cs, [])
          else
            (true, mgoto p st ((st.current : Int) - 1), [], { last_ts := now },
             [{ from_slide := st.current,
                to_slide := (mgoto p st ((st.current : Int) - 1)).current,
                confidence := 1, intent := "Voice: Back" }])
        | .goto =>
          match trig.target with
          | none => (false, st, window, cs, [])
          | some tgt =>
            if 0 ≤ tgt ∧ tgt < (p.numSlides : Int) then
              (true, mgoto p st tgt, [], { last_ts := now },
               [{ from_slide := st.current, to_slide := (mgoto p st tgt).current,
                  confidence := 1,
                  intent := "Voice: Go to " ++ toString (tgt + 1) }])
            else (false, st, window, cs, [])
        | .first =>
          (true, mgoto p st 0, [], { last_ts := now },
           [{ from_slide := st.current, to_slide := 0, confidence := 1,
              intent := "Voice: First" }])
        | .last =>
          (true, mgoto p st ((p.numSlides : Int) - 1), [], { last_ts := now },
           [{ from_slide := st.current,
              to_slide := (mgoto p st ((p.numSlides : Int) - 1)).current,
              confidence := 1, intent := "Voice: Last" }])

/-! ## Theorems

Helper lemmas first, then the claim theorems (with witnesses /
counterexamples) in claim order. -/

theorem qadd_eq (a b : ℚ) : qadd a b = a + b := by
  unfold qadd
  rw [Rat.mkRat_eq_divInt]
  conv_rhs => rw [← Rat.num_divInt_den a, ← Rat.num_divInt_den b]
  rw [Rat.divInt_add_divInt _ _
    (Int.natCast_ne_zero.mpr a.den_nz) (Int.natCast_ne_zero.mpr b.den_nz)]
  push_cast
  ring_nf

theorem qsub_eq (a b : ℚ) : qsub a b = a - b := by
  unfold qsub
  rw [Rat.mkRat_eq_divInt]
  conv_rhs => rw [← Rat.num_divInt_den a, ← Rat.num_divInt_den b]
  rw [Rat.divInt_sub_divInt _ _
    (Int.natCast_ne_zero.mpr a.den_nz) (Int.natCast_ne_zero.mpr b.den_nz)]
  push_cast
  ring_nf

theorem qmul_eq (a b : ℚ) : qmul a b = a * b := (Rat.mul_eq_mkRat a b).symm

theorem qdiv_eq (a b : ℚ) : qdiv a b = a / b := (Rat.div_def' a b).symm

theorem hammingZip_comm (a b : List Char) : hammingZip a b = hammingZip b a := by
  induction a generalizing b with
  | nil => cases b <;> rfl
  | cons x xs ih =>
    cases b with
    | nil => rfl
    | cons y ys =>
      simp only [hammingZip, ih]
      congr 1
      by_cases h : x = y
      · simp [h]
      · rw [if_neg h, if_neg (fun hyx => h hyx.symm)]

theorem fuzzyCore_symm (m : Nat) (x y : List Char)
    (h : ¬((x.length = m ∧ y.length = m + 1) ∨ (x.length = m + 1 ∧ y.length = m))) :
    fuzzyCore m x y = fuzzyCore m y x := by
  unfold fuzzyCore
  rw [min_comm y.length x.length, hammingZip_comm y x]
  by_cases h1 : x = y
  · simp [h1]
  · have h1' : ¬ y = x := fun e => h1 e.symm
    rw [if_neg h1, if_neg h1']
    by_cases h2 : x.length < m ∨ y.length < m
    · rw [if_pos h2, if_pos (Or.symm h2)]
    · have h2' : ¬ (y.length < m ∨ x.length < m) := fun o => h2 (Or.symm o)
      rw [if_neg h2, if_neg h2']
      by_cases h3 : min x.length y.length ≥ m ∧
          x.take (min x.length y.length) = y.take (min x.length y.length)
      · rw [if_pos h3, if_pos ⟨h3.1, h3.2.symm⟩]
      · have h3' : ¬ (min x.length y.length ≥ m ∧
            y.take (min x.length y.length) = x.take (min x.length y.length)) :=
          fun hc => h3 ⟨hc.1, hc.2.symm⟩
        rw [if_neg h3, if_neg h3']
        rw [show ((y.length : Int) - (x.length : Int)).natAbs
              = ((x.length : Int) - (y.length : Int)).natAbs from by omega]
        by_cases h4 : ((x.length : Int) - (y.length : Int)).natAbs ≤ 1
        · have hiff : x.length ≥ m + 1 ↔ y.length ≥ m + 1 := by omega
          by_cases h5 : x.length ≥ m + 1
          · rw [if_pos ⟨h4, h5⟩, if_pos ⟨h4, hiff.mp h5⟩]
          · rw [if_neg (fun hc => h5 hc.2), if_neg (fun hc => h5 (hiff.mpr hc.2))]
        · rw [if_neg (fun hc => h4 hc.1), if_neg (fun hc => h4 hc.1)]

/-- C4 counterexample.  `_fuzzy_match` is *not* symmetric: with the
spec-default `fuzzy_match_min_len = 3`, `"cbts"` vs `"cat"` matches (the
one-character-difference branch fires because `len(w1) >= min_len + 1`
checks only the first argument) while `"cat"` vs `"cbts"` does not. -/
theorem fuzzyMatch_symmetry_cex :
    fuzzyMatch 3 "cbts" "cat" = true ∧ fuzzyMatch 3 "cat" "cbts" = false := by
  decide

/-- C4 (amended).  `fuzzy_match(a, b) = fuzzy_match(b, a)` holds except
when the two normalised lengths are exactly `min_len` and `min_len + 1`
(in either order) — the region where the asymmetric guard
`len(w1) >= min_len + 1` can differ between the two argument orders. -/
theorem fuzzyMatch_symm_outside_minlen_boundary (m : Nat) (a b : String)
    (h : ¬(((normWord a).length = m ∧ (normWord b).length = m + 1) ∨
           ((normWord a).length = m + 1 ∧ (normWord b).length = m))) :
    fuzzyMatch m a b = fuzzyMatch m b a :=
  fuzzyCore_symm m (normWord a) (normWord b) h

/-- Witness for the amended C4: two equal-length words. -/
theorem fuzzyMatch_symm_outside_minlen_boundary_witness :
    fuzzyMatch 3 "hello" "world" = fuzzyMatch 3 "world" "hello" :=
  fuzzyMatch_symm_outside_minlen_boundary 3 "hello" "world" (by decide)

/-- Inversion for `check`: when a transition dictionary is returned, the
`would_transition` gate was true, `to_slide` is the computed target, and
the state moved to the target with the word counter cleared. -/
theorem check_some_transition (p : MParams) (encOk : Bool) (sims : Nat → ℚ)
    (st : MState) (text : List Char) (ic : Bool) (r : CheckResult) (st' : MState)
    (tr : TransitionPayload)
    (h : check p encOk sims st text ic = (some r, st'))
    (ht : r.transition = some tr) :
    wouldTransitionOf p sims st.current st.words_since ic = true ∧
    tr.to_slide = targetOf p sims st.current ∧
    st'.current = targetOf p sims st.current ∧ st'.words_since = 0 := by
  by_cases h1 : pyStrip text = []
  · simp [check, h1] at h
  · by_cases h2 : encOk = false
    · simp [check, h1, h2] at h
    · by_cases h3 : wouldTransitionOf p sims st.current st.words_since ic = true
      · simp [check, h1, h2, h3] at h
        obtain ⟨hr, hs⟩ := h
        subst hr
        simp only [Option.some.injEq] at ht
        subst ht
        exact ⟨h3, rfl, by rw [← hs], by rw [← hs]⟩
      · simp [check, h1, h2, h3] at h
        obtain ⟨hr, hs⟩ := h
        subst hr
        simp at ht

/-- C1.  If `SlideMatcher.check` returns a result containing a
transition with `to_slide = t`, then `t` differs from the current slide
before the call, the boosted similarity `sims t` is at least the
matcher's threshold, and `sims t - sims current_before` is at least the
required diff (`self.diff` in Q&A mode, else
`max(self.diff, self.stay_bias)`). -/
theorem check_transition_meets_threshold_and_diff (p : MParams) (encOk : Bool)
    (sims : Nat → ℚ) (st : MState) (text : List Char) (ic : Bool)
    (r : CheckResult) (st' : MState) (tr : TransitionPayload)
    (hn : 0 < p.numSlides)
    (h : check p encOk sims st text ic = (some r, st'))
    (ht : r.transition = some tr) :
    tr.to_slide ≠ st.current ∧
    sims tr.to_slide ≥ p.threshold ∧
    sims tr.to_slide - sims st.current ≥
      (if p.qa_mode then p.diff else max p.diff p.stay_bias) := by
  obtain ⟨hwt, hto, -, -⟩ := check_some_transition p encOk sims st text ic r st' tr h ht
  rw [hto]
  simp only [wouldTransitionOf, Bool.and_eq_true, decide_eq_true_eq] at hwt
  obtain ⟨⟨⟨hne, hth⟩, hdiff⟩, -⟩ := hwt
  refine ⟨hne, hth, ?_⟩
  rw [← qsub_eq]
  simpa [requiredDiffOf] using hdiff

/-- Concrete deck used by the C1 witness: two slides, the window matches
slide 1 decisively. -/
def pC1 : MParams :=
  { numSlides := 2, titles := fun _ => "", threshold := mkRat 1 2, cooldown := 0,
    diff := mkRat 1 10, forward_bias := mkRat 1 25, back_bias := mkRat 3 100,
    stay_bias := mkRat 3 100, qa_mode := false, allow_non_adjacent := false,
    non_adjacent_threshold := mkRat 3 4, non_adjacent_boost := mkRat 3 20 }

/-- Boosted similarity oracle for the C1 witness. -/
def simsC1 : Nat → ℚ := fun i => if i = 1 then mkRat 9 10 else 0

/-- Transition payload produced by the C1 witness run. -/
def trC1 : TransitionPayload :=
  { from_slide := 0, to_slide := 1, confidence := mkRat 9 10, slide_title := "",
    intent := "forward" }

/-- Full result of the C1 witness run. -/
def rC1 : CheckResult :=
  { eval :=
      { current_slide := 0, prev_slide := 0, next_slide := 1, target_slide := 1,
        best_slide := 1, prev_sim := 0, current_sim := 0, next_sim := mkRat 9 10,
        target_sim := mkRat 9 10, best_sim := mkRat 9 10, threshold := mkRat 1 2,
        required_diff := mkRat 1 10, diff := mkRat 9 10, intent := "forward",
        would_transition := true, qa_mode := false, allow_non_adjacent := false,
        non_adjacent := false, cooldown_blocked := false, cooldown_words := 0,
        words_since := 5 }
    transition := some trC1 }

/-- Witness for C1: a concrete call that does transition. -/
theorem check_transition_meets_threshold_and_diff_witness :
    trC1.to_slide ≠ (⟨0, 5⟩ : MState).current ∧
    simsC1 trC1.to_slide ≥ pC1.threshold ∧
    simsC1 trC1.to_slide - simsC1 (⟨0, 5⟩ : MState).current ≥
      (if pC1.qa_mode then pC1.diff else max pC1.diff pC1.stay_bias) :=
  check_transition_meets_threshold_and_diff pC1 true simsC1 ⟨0, 5⟩ ['h'] false
    rC1 ⟨1, 0⟩ trC1 (by decide) (by decide) (by decide)

/-- `max(xs, key=f)` starting from `x` stays inside `x :: xs`. -/
theorem foldl_max_mem (f : Nat → ℚ) (xs : List Nat) (x : Nat) :
    xs.foldl (fun b i => if f i > f b then i else b) x = x ∨
    xs.foldl (fun b i => if f i > f b then i else b) x ∈ xs := by
  induction xs generalizing x with
  | nil => left; rfl
  | cons y ys ih =>
    simp only [List.foldl_cons]
    rcases ih (if f y > f x then y else x) with h | h
    · rw [h]
      split_ifs
      · right; exact List.mem_cons_self _ _
      · left; rfl
    · right; exact List.mem_cons_of_mem _ h

/-- `max(l, key=f)` is a member of a non-empty `l`. -/
theorem pyMaxKey_mem (l : List Nat) (f : Nat → ℚ) (hl : l ≠ []) :
    pyMaxKey l f ∈ l := by
  cases l with
  | nil => exact absurd rfl hl
  | cons x xs =>
    show xs.foldl (fun b i => if f i > f b then i else b) x ∈ x :: xs
    rcases foldl_max_mem f xs x with h | h
    · rw [h]; exact List.mem_cons_self _ _
    · exact List.mem_cons_of_mem _ h

/-- Every non-Q&A candidate is the current slide or a clamped
neighbour. -/
theorem candidates_nonqa_sub (p : MParams) (cur : Nat) (hqa : p.qa_mode = false) :
    ∀ x ∈ candidatesOf p cur,
      x = cur ∨ x = nextSlide p cur ∨ x = prevSlide cur := by
  intro x hx
  unfold candidatesOf at hx
  rw [hqa] at hx
  simp only [Bool.false_eq_true, if_false, List.append_assoc, List.cons_append,
    List.nil_append, List.mem_cons, List.mem_append] at hx
  rcases hx with hx | hx | hx
  · left; exact hx
  · right; left; split_ifs at hx <;> simp_all
  · right; right; split_ifs at hx <;> simp_all

/-- In non-Q&A mode the local best is the current slide or a clamped
neighbour. -/
theorem localBest_cases (p : MParams) (sims : Nat → ℚ) (cur : Nat)
    (hqa : p.qa_mode = false) :
    localBestOf p sims cur = cur ∨ localBestOf p sims cur = nextSlide p cur ∨
    localBestOf p sims cur = prevSlide cur := by
  have hne : candidatesOf p cur ≠ [] := by
    unfold candidatesOf
    rw [hqa]
    simp
  have hmem : localBestOf p sims cur ∈ candidatesOf p cur := by
    unfold localBestOf
    rw [hqa]
    simp only [Bool.false_eq_true, if_false]
    exact pyMaxKey_mem _ _ hne
  exact candidates_nonqa_sub p cur hqa _ hmem
/-- The biased target (before the non-adjacent override) is the local
best or a clamped neighbour. -/
theorem targetAfterBack_cases (p : MParams) (sims : Nat → ℚ) (cur : Nat) :
    targetAfterBack p sims cur = localBestOf p sims cur ∨
    targetAfterBack p sims cur = nextSlide p cur ∨
    targetAfterBack p sims cur = prevSlide cur := by
  unfold targetAfterBack targetAfterForward
  split_ifs <;> tauto

/-- C2.  In non-Q&A mode, a returned transition's `to_slide` is the
current slide or a clamped neighbour, or else it is `argmax(sims)`, and
the latter case requires `allow_non_adjacent` and
`sims[best] ≥ max(sims[local_best] + non_adjacent_boost,
non_adjacent_threshold)`. -/
theorem check_nonqa_transition_adjacent_or_global_best (p : MParams) (encOk : Bool)
    (sims : Nat → ℚ) (st : MState) (text : List Char) (ic : Bool)
    (r : CheckResult) (st' : MState) (tr : TransitionPayload)
    (hn : 0 < p.numSlides)
    (hqa : p.qa_mode = false)
    (h : check p encOk sims st text ic = (some r, st'))
    (ht : r.transition = some tr) :
    (tr.to_slide = st.current ∨ tr.to_slide = nextSlide p st.current ∨
     tr.to_slide = prevSlide st.current) ∨
    (tr.to_slide = argmaxQ p.numSlides sims ∧ p.allow_non_adjacent = true ∧
     sims (argmaxQ p.numSlides sims) ≥
       max (sims (localBestOf p sims st.current) + p.non_adjacent_boost)
         p.non_adjacent_threshold) := by
  obtain ⟨-, hto, -, -⟩ := check_some_transition p encOk sims st text ic r st' tr h ht
  rw [hto]
  unfold targetOf
  rw [hqa]
  simp only [Bool.false_eq_true, if_false]
  split_ifs with hna
  · right
    obtain ⟨ha, -, hreq⟩ := hna
    rw [← qadd_eq]
    exact ⟨rfl, ha, hreq⟩
  · left
    rcases targetAfterBack_cases p sims st.current with h1 | h1 | h1 <;> rw [h1]
    · rcases localBest_cases p sims st.current hqa with h2 | h2 | h2 <;> rw [h2] <;> tauto
    · tauto
    · tauto

/-- Deck parameters for the C2 witness. -/
def pC2 : MParams :=
  { numSlides := 2, titles := fun _ => "", threshold := mkRat 1 2, cooldown := 0,
    diff := mkRat 1 10, forward_bias := mkRat 1 25, back_bias := mkRat 3 100,
    stay_bias := mkRat 3 100, qa_mode := false, allow_non_adjacent := false,
    non_adjacent_threshold := mkRat 3 4, non_adjacent_boost := mkRat 3 20 }

/-- Boosted similarity oracle for the C2 witness. -/
def simsC2 : Nat → ℚ := fun i => if i = 1 then mkRat 9 10 else 0

/-- Transition payload produced by the C2 witness run. -/
def trC2 : TransitionPayload :=
  { from_slide := 0, to_slide := 1, confidence := mkRat 9 10, slide_title := "",
    intent := "forward" }

/-- Full result of the C2 witness run. -/
def rC2 : CheckResult :=
  { eval :=
      { current_slide := 0, prev_slide := 0, next_slide := 1, target_slide := 1,
        best_slide := 1, prev_sim := 0, current_sim := 0, next_sim := mkRat 9 10,
        target_sim := mkRat 9 10, best_sim := mkRat 9 10, threshold := mkRat 1 2,
        required_diff := mkRat 1 10, diff := mkRat 9 10, intent := "forward",
        would_transition := true, qa_mode := false, allow_non_adjacent := false,
        non_adjacent := false, cooldown_blocked := false, cooldown_words := 0,
        words_since := 7 }
    transition := some trC2 }

/-- Witness for C2: a concrete non-Q&A transition (to the next slide). -/
theorem check_nonqa_transition_adjacent_or_global_best_witness :
    (trC2.to_slide = (⟨0, 7⟩ : MState).current ∨
     trC2.to_slide = nextSlide pC2 (⟨0, 7⟩ : MState).current ∨
     trC2.to_slide = prevSlide (⟨0, 7⟩ : MState).current) ∨
    (trC2.to_slide = argmaxQ pC2.numSlides simsC2 ∧ pC2.allow_non_adjacent = true ∧
     simsC2 (argmaxQ pC2.numSlides simsC2) ≥
       max (simsC2 (localBestOf pC2 simsC2 (⟨0, 7⟩ : MState).current) + pC2.non_adjacent_boost)
         pC2.non_adjacent_threshold) :=
  check_nonqa_transition_adjacent_or_global_best pC2 true simsC2 ⟨0, 7⟩ ['h'] false
    rC2 ⟨1, 0⟩ trC2 (by decide) rfl (by decide) (by decide)

/-- C3.  With non-empty text, `ignore_cooldown = false`,
`words_since_transition < cooldown` and successful encoding, `check`
returns no transition, leaves the state unchanged, and the evaluation
reports `would_transition = false` and `cooldown_blocked = true`. -/
theorem check_cooldown_suppresses_transition (p : MParams) (encOk : Bool)
    (sims : Nat → ℚ) (st : MState) (text : List Char) (ic : Bool)
    (hn : 0 < p.numSlides)
    (htext : pyStrip text ≠ [])
    (hic : ic = false)
    (hcd : st.words_since < (p.cooldown : Int))
    (henc : encOk = true) :
    (check p encOk sims st text ic).2 = st ∧
    Option.map (fun r => (r.transition, r.eval.would_transition, r.eval.cooldown_blocked))
      (check p encOk sims st text ic).1 = some (none, false, true) := by
  subst hic; subst henc
  have hcb : cooldownBlockedOf p st.words_since false = true := by
    simp [cooldownBlockedOf, hcd]
  have hwt : wouldTransitionOf p sims st.current st.words_since false = false := by
    simp [wouldTransitionOf, hcb]
  simp [check, htext, hwt, hcb]

/-- Witness for C3: a concrete cooldown-blocked call. -/
theorem check_cooldown_suppresses_transition_witness :
    (check pC3 true simsC3 ⟨0, 2⟩ ['h'] false).2 = ⟨0, 2⟩ ∧
    Option.map (fun r => (r.transition, r.eval.would_transition, r.eval.cooldown_blocked))
      (check pC3 true simsC3 ⟨0, 2⟩ ['h'] false).1 = some (none, false, true) :=
  check_cooldown_suppresses_transition pC3 true simsC3 ⟨0, 2⟩ ['h'] false
    (by decide) (by decide) rfl (by decide) rfl

/-- Deck parameters for the C5 counterexample: three slides,
`forward_bias = 0.04`, `back_bias = 0.03` (config.py values). -/
def pC5 : MParams :=
  { numSlides := 3, titles := fun _ => "", threshold := mkRat 1 2, cooldown := 0,
    diff := mkRat 1 10, forward_bias := mkRat 1 25, back_bias := mkRat 3 100,
    stay_bias := mkRat 3 100, qa_mode := false, allow_non_adjacent := false,
    non_adjacent_threshold := mkRat 3 4, non_adjacent_boost := mkRat 3 20 }

/-- Similarities for the C5 counterexample (current slide is 1):
`sims = [0.58, 0.40, 0.60]`, so the *next* slide is the local best. -/
def simsC5 : Nat → ℚ := fun i =>
  if i = 0 then mkRat 29 50 else if i = 2 then mkRat 3 5 else mkRat 2 5

/-- C5 counterexample.  At `current = 1` with `sims = [0.58, 0.40,
0.60]` the forward-bias rule fires and sets the target to the next slide
(slide 2, which is also the local best), yet the back-bias comparison
still moves the target to the previous slide 0: the claim "the back bias
applies only if the forward bias did not take effect" fails when
`next_slide = local_best`, because the code's guard is
`target == local_best`, not "forward bias did not fire". -/
theorem backBias_after_forwardBias_cex :
    targetAfterForward pC5 simsC5 1 = nextSlide pC5 1 ∧
    nextSlide pC5 1 ≠ 1 ∧
    simsC5 (nextSlide pC5 1) ≥ qsub (simsC5 (localBestOf pC5 simsC5 1)) pC5.forward_bias ∧
    targetAfterBack pC5 simsC5 1 = prevSlide 1 ∧
    prevSlide 1 ≠ nextSlide pC5 1 := by decide

/-- C5 (amended).  The back-bias comparison cannot move the target to
`prev` once the forward-bias rule has moved the target *away from the
local best* (i.e. to a next slide different from `local_best`); when
`next_slide = local_best` the forward-bias assignment is a no-op and the
back bias may still fire. -/
theorem backBias_noop_when_forward_moved_target (p : MParams) (sims : Nat → ℚ)
    (cur : Nat)
    (h1 : targetAfterForward p sims cur = nextSlide p cur)
    (h2 : nextSlide p cur ≠ localBestOf p sims cur) :
    targetAfterBack p sims cur = nextSlide p cur := by
  unfold targetAfterBack
  rw [if_neg (fun hc => h2 (h1.symm.trans hc.2.1))]
  exact h1

/-- Deck parameters for the C5 witness. -/
def pC5w : MParams :=
  { numSlides := 2, titles := fun _ => "", threshold := mkRat 1 2, cooldown := 0,
    diff := mkRat 1 10, forward_bias := mkRat 1 25, back_bias := mkRat 3 100,
    stay_bias := mkRat 3 100, qa_mode := false, allow_non_adjacent := false,
    non_adjacent_threshold := mkRat 3 4, non_adjacent_boost := mkRat 3 20 }

/-- Similarities for the C5 witness: the current slide 0 is the local
best but the forward bias still moves the target to slide 1. -/
def simsC5w : Nat → ℚ := fun i => if i = 0 then mkRat 3 5 else mkRat 29 50

/-- Witness for the amended C5. -/
theorem backBias_noop_when_forward_moved_target_witness :
    targetAfterBack pC5w simsC5w 0 = nextSlide pC5w 0 :=
  backBias_noop_when_forward_moved_target pC5w simsC5w 0 (by decide) (by decide)

/-- `check` either leaves the state unchanged or clears the word
counter. -/
theorem check_snd_eq_or_zero (p : MParams) (encOk : Bool) (sims : Nat → ℚ)
    (st : MState) (text : List Char) (ic : Bool) :
    (check p encOk sims st text ic).2 = st ∨
    (check p encOk sims st text ic).2.words_since = 0 := by
  by_cases h1 : pyStrip text = []
  · left; simp [check, h1]
  · by_cases h2 : encOk = false
    · left; simp [check, h1, h2]
    · by_cases h3 : wouldTransitionOf p sims st.current st.words_since ic = true
      · right; simp [check, h1, h2, h3]
      · left; simp [check, h1, h2, h3]

/-- C6.  `words_since_transition` stays non-negative along any operation
sequence from the constructor state; it is 0 immediately after an
accepted transition of `check`, after an in-range `goto`, and after
`reset`; `add_words n` adds exactly `n`; and no operation other than
`add_words` ever changes it except by resetting it to 0. -/
theorem wordsSince_invariant (p : MParams) :
    (∀ ops : List MOp, 0 ≤ (mrun p ops).words_since) ∧
    (∀ (encOk : Bool) (sims : Nat → ℚ) (st : MState) (text : List Char) (ic : Bool)
       (r : CheckResult) (st' : MState) (tr : TransitionPayload),
       check p encOk sims st text ic = (some r, st') → r.transition = some tr →
       st'.words_since = 0) ∧
    (∀ (st : MState) (i : Int), 0 ≤ i → i < (p.numSlides : Int) →
       (mgoto p st i).words_since = 0) ∧
    (∀ st : MState, (mstep p st .reset).words_since = 0) ∧
    (∀ (st : MState) (n : Nat),
       (mstep p st (.addWords n)).words_since = st.words_since + n) ∧
    (∀ (st : MState) (op : MOp), (∀ n, op ≠ .addWords n) →
       (mstep p st op).words_since = st.words_since ∨
       (mstep p st op).words_since = 0) := by
  have hpres : ∀ (st : MState) (op : MOp), 0 ≤ st.words_since →
      0 ≤ (mstep p st op).words_since := by
    intro st op h
    cases op with
    | check encOk sims text ic =>
      rcases check_snd_eq_or_zero p encOk sims st text ic with he | he
      · show 0 ≤ (check p encOk sims st text ic).2.words_since
        rw [he]; exact h
      · show 0 ≤ (check p encOk sims st text ic).2.words_since
        rw [he]
    | addWords n =>
      show 0 ≤ st.words_since + (n : Int)
      omega
    | goto i =>
      show 0 ≤ (mgoto p st i).words_since
      unfold mgoto
      split_ifs <;> simpa using h
    | reset => exact le_refl 0
  have hrun : ∀ (ops : List MOp) (st : MState), 0 ≤ st.words_since →
      0 ≤ (ops.foldl (mstep p) st).words_since := by
    intro ops
    induction ops with
    | nil => intro st h; exact h
    | cons op rest ih => intro st h; exact ih _ (hpres st op h)
  refine ⟨fun ops => hrun ops ⟨0, 0⟩ le_rfl, ?_, ?_, ?_, ?_, ?_⟩
  · intro encOk sims st text ic r st' tr h ht
    exact (check_some_transition p encOk sims st text ic r st' tr h ht).2.2.2
  · intro st i h1 h2
    unfold mgoto
    rw [if_pos ⟨h1, h2⟩]
  · intro st
    rfl
  · intro st n
    rfl
  · intro st op hop
    cases op with
    | check encOk sims text ic =>
      rcases check_snd_eq_or_zero p encOk sims st text ic with he | he
      · left
        show (check p encOk sims st text ic).2.words_since = st.words_since
        rw [he]
      · right
        exact he
    | addWords n => exact absurd rfl (hop n)
    | goto i =>
      show (mgoto p st i).words_since = st.words_since ∨ (mgoto p st i).words_since = 0
      unfold mgoto
      split_ifs
      · right
        rfl
      · left
        rfl
    | reset =>
      right
      rfl


/-- Deck parameters for the C6 witness. -/
def pC6 : MParams :=
  { numSlides := 2, titles := fun _ => "", threshold := mkRat 1 2, cooldown := 0,
    diff := mkRat 1 10, forward_bias := mkRat 1 25, back_bias := mkRat 3 100,
    stay_bias := mkRat 3 100, qa_mode := false, allow_non_adjacent := false,
    non_adjacent_threshold := mkRat 3 4, non_adjacent_boost := mkRat 3 20 }

/-- Boosted similarity oracle for the C6 witness. -/
def simsC6 : Nat → ℚ := fun i => if i = 1 then mkRat 9 10 else 0

/-- Transition payload of the C6 witness run. -/
def trC6 : TransitionPayload :=
  { from_slide := 0, to_slide := 1, confidence := mkRat 9 10, slide_title := "",
    intent := "forward" }

/-- Full result of the C6 witness run. -/
def rC6 : CheckResult :=
  { eval :=
      { current_slide := 0, prev_slide := 0, next_slide := 1, target_slide := 1,
        best_slide := 1, prev_sim := 0, current_sim := 0, next_sim := mkRat 9 10,
        target_sim := mkRat 9 10, best_sim := mkRat 9 10, threshold := mkRat 1 2,
        required_diff := mkRat 1 10, diff := mkRat 9 10, intent := "forward",
        would_transition := true, qa_mode := false, allow_non_adjacent := false,
        non_adjacent := false, cooldown_blocked := false, cooldown_words := 0,
        words_since := 5 }
    transition := some trC6 }

/-- Witness for C6: each conjunct applied to concrete inputs (including
an accepted `check` transition). -/
theorem wordsSince_invariant_witness :
    0 ≤ (mrun pC6 [MOp.addWords 3, MOp.reset]).words_since ∧
    (⟨1, 0⟩ : MState).words_since = 0 ∧
    (mgoto pC6 ⟨0, 5⟩ 1).words_since = 0 ∧
    (mstep pC6 ⟨0, 5⟩ .reset).words_since = 0 ∧
    (mstep pC6 ⟨0, 5⟩ (.addWords 3)).words_since =
      (⟨0, 5⟩ : MState).words_since + (3 : Nat) ∧
    ((mstep pC6 ⟨0, 5⟩ .reset).words_since = (⟨0, 5⟩ : MState).words_since ∨
     (mstep pC6 ⟨0, 5⟩ .reset).words_since = 0) := by
  obtain ⟨h1, h2, h3, h4, h5, h6⟩ := wordsSince_invariant pC6
  exact ⟨h1 [MOp.addWords 3, MOp.reset],
    h2 true simsC6 ⟨0, 5⟩ ['h'] false rC6 ⟨1, 0⟩ trC6 (by decide) rfl,
    h3 ⟨0, 5⟩ 1 (by decide) (by decide), h4 ⟨0, 5⟩, h5 ⟨0, 5⟩ 3,
    h6 ⟨0, 5⟩ .reset (fun n h => MOp.noConfusion h)⟩

/-- The trimmed buffer is always a suffix of the old one. -/
theorem processBuffer_suffix (st : TState) (words : List WordHyp) (n : Nat) :
    (processBuffer st words n).IsSuffix st.buffer := by
  unfold processBuffer
  repeat' split
  all_goals first
    | exact List.drop_suffix _ _
    | exact List.suffix_refl _

/-- C7.  `add_audio` keeps the PCM buffer at or below
`buffer_seconds * sample_rate` samples and only ever discards from the
front (the result is a suffix of old buffer ++ new samples); `process`
only removes samples from the front, so the cap is an invariant of both
operations. -/
theorem buffer_cap_invariant :
    (∀ (st : TState) (pcm : List Int), 0 < st.buffer_seconds * st.sample_rate →
       (addAudio st pcm).buffer.length ≤ st.buffer_seconds * st.sample_rate ∧
       (addAudio st pcm).buffer.IsSuffix
         (st.buffer ++ pcm.map (fun k => qdiv (mkRat k 1) (mkRat 32768 1)))) ∧
    (∀ (cfg : FilterCfg) (asr : List ℚ → List WordHyp) (st : TState),
       (process cfg asr st).2.buffer.IsSuffix st.buffer ∧
       (process cfg asr st).2.buffer.length ≤ st.buffer.length) ∧
    (∀ (cfg : FilterCfg) (asr : List ℚ → List WordHyp) (st : TState) (cap : Nat),
       st.buffer.length ≤ cap → (process cfg asr st).2.buffer.length ≤ cap) := by
  have hproc : ∀ (cfg : FilterCfg) (asr : List ℚ → List WordHyp) (st : TState),
      (process cfg asr st).2.buffer.IsSuffix st.buffer := by
    intro cfg asr st
    by_cases hshort : st.buffer.length < st.sample_rate
    · have : (process cfg asr st).2.buffer = st.buffer := by simp [process, hshort]
      rw [this]
    · have : (process cfg asr st).2.buffer =
          processBuffer st (asr st.buffer)
            (agreeCount cfg.fuzzy_match_min_len st.last_words (asr st.buffer)) := by
        simp [process, hshort]
      rw [this]
      exact processBuffer_suffix _ _ _
  refine ⟨?_, fun cfg asr st => ⟨hproc cfg asr st, (hproc cfg asr st).length_le⟩,
    fun cfg asr st cap hcap => le_trans (hproc cfg asr st).length_le hcap⟩
  intro st pcm hpos
  unfold addAudio
  by_cases hlen : (st.buffer ++ pcm.map (fun k => qdiv (mkRat k 1) (mkRat 32768 1))).length >
      st.buffer_seconds * st.sample_rate
  · rw [if_pos hlen]
    refine ⟨?_, ?_⟩
    · show (pyTakeLast (st.buffer ++ pcm.map (fun k => qdiv (mkRat k 1) (mkRat 32768 1)))
          (st.buffer_seconds * st.sample_rate)).length ≤ _
      unfold pyTakeLast
      rw [if_neg (by omega : ¬ st.buffer_seconds * st.sample_rate = 0)]
      simp only [List.length_drop]
      omega
    · show (pyTakeLast (st.buffer ++ pcm.map (fun k => qdiv (mkRat k 1) (mkRat 32768 1)))
          (st.buffer_seconds * st.sample_rate)).IsSuffix _
      unfold pyTakeLast
      rw [if_neg (by omega : ¬ st.buffer_seconds * st.sample_rate = 0)]
      exact List.drop_suffix _ _
  · rw [if_neg hlen]
    refine ⟨?_, ?_⟩
    · show (st.buffer ++ pcm.map (fun k => qdiv (mkRat k 1) (mkRat 32768 1))).length ≤ _
      omega
    · show (st.buffer ++ pcm.map (fun k => qdiv (mkRat k 1) (mkRat 32768 1))).IsSuffix _
      exact List.suffix_refl _

/-- Filter configuration used by the C7 witness. -/
def cfgC7 : FilterCfg :=
  { filter_punctuation := true, min_word_length := 2,
    dedupe_consecutive := true, fuzzy_match_min_len := 3 }

/-- Transcriber state for the C7 witness (defaults of config.py). -/
def stC7 : TState :=
  { sample_rate := 16000, buffer_seconds := 15, buffer := [], last_words := [] }

/-- Witness for C7 at a concrete state, audio chunk and ASR oracle. -/
theorem buffer_cap_invariant_witness :
    (addAudio stC7 [1000]).buffer.length ≤ stC7.buffer_seconds * stC7.sample_rate ∧
    (addAudio stC7 [1000]).buffer.IsSuffix
      (stC7.buffer ++ [(1000 : Int)].map (fun k => qdiv (mkRat k 1) (mkRat 32768 1))) ∧
    (process cfgC7 (fun _ => []) stC7).2.buffer.IsSuffix stC7.buffer ∧
    (process cfgC7 (fun _ => []) stC7).2.buffer.length ≤ stC7.buffer.length ∧
    (process cfgC7 (fun _ => []) stC7).2.buffer.length ≤ 5 := by
  obtain ⟨h1, h2, h3⟩ := buffer_cap_invariant
  exact ⟨(h1 stC7 [1000] (by decide)).1, (h1 stC7 [1000] (by decide)).2,
    (h2 cfgC7 (fun _ => []) stC7).1, (h2 cfgC7 (fun _ => []) stC7).2,
    h3 cfgC7 (fun _ => []) stC7 5 (by decide)⟩

/-- C8.  When the buffer holds fewer than `sample_rate` samples (less
than one second), `process` returns `([], [])` and leaves the state
untouched, for *every* ASR oracle — i.e. without consulting the model
and without failing. -/
theorem process_short_buffer_noop (cfg : FilterCfg) (asr : List ℚ → List WordHyp)
    (st : TState) (h : st.buffer.length < st.sample_rate) :
    process cfg asr st = (([], []), st) := by
  unfold process
  rw [if_pos h]

/-- Filter configuration used by the C8 witness. -/
def cfgC8 : FilterCfg :=
  { filter_punctuation := true, min_word_length := 2,
    dedupe_consecutive := true, fuzzy_match_min_len := 3 }

/-- Transcriber state for the C8 witness: an empty buffer. -/
def stC8 : TState :=
  { sample_rate := 16000, buffer_seconds := 15, buffer := [], last_words := [] }

/-- Witness for C8: the empty buffer with an oracle that would return a
word; the result ignores it. -/
theorem process_short_buffer_noop_witness :
    process cfgC8 (fun _ => [{ word := "hello", end_s := 1 }]) stC8 = (([], []), stC8) :=
  process_short_buffer_noop cfgC8 (fun _ => [{ word := "hello", end_s := 1 }]) stC8
    (by decide)


/-- C9.  A Next trigger with the matcher at the last slide, or a Prev
trigger at slide 0, is rejected by `_try_trigger`: it returns `False`,
emits no `slide_transition` event, and leaves the matcher state, the
text window and the command-debounce timestamp unchanged. -/
theorem tryTrigger_edge_rejected (cfg : TrigCfg) (p : MParams) (now : ℚ)
    (text : String) (st : MState) (window : List String) (cs : CommandState)
    (allowed : List TriggerAction) (trig : Trigger)
    (hd : detectTrigger text = some trig)
    (h : (trig.action = .next ∧ (st.current : Int) ≥ (p.numSlides : Int) - 1) ∨
         (trig.action = .prev ∧ st.current = 0)) :
    tryTrigger cfg p now text st window cs allowed = (false, st, window, cs, []) := by
  unfold tryTrigger
  by_cases h0 : text = ""
  · rw [if_pos h0]
  · rw [if_neg h0, hd]
    show (if trig.action ∉ allowed then (false, st, window, cs, ([] : List TriggerEvent))
      else _) = _
    by_cases h1 : trig.action ∉ allowed
    · rw [if_pos h1]
    · rw [if_neg h1]
      by_cases h2 : qsub now cs.last_ts < qdiv cfg.trigger_cooldown_ms (mkRat 1000 1)
      · rw [if_pos h2]
      · rw [if_neg h2]
        by_cases h3 : (trig.action = .next ∨ trig.action = .prev) ∧
            st.words_since < cfg.trigger_min_words_between
        · rw [if_pos h3]
        · rw [if_neg h3]
          rcases h with ⟨ha, hc⟩ | ⟨ha, hc⟩ <;> simp only [ha]
          · rw [if_pos hc]
          · rw [if_pos (by omega : (st.current : Int) ≤ 0)]

/-- Trigger debounce configuration for the C9 witness (config.py:
`TRIGGER_COOLDOWN_MS = 1200`, `TRIGGER_MIN_WORDS_BETWEEN = 4`). -/
def cfgC9 : TrigCfg :=
  { trigger_cooldown_ms := mkRat 1200 1, trigger_min_words_between := 4 }

/-- Deck parameters for the C9 witness (three slides). -/
def pC9 : MParams :=
  { numSlides := 3, titles := fun _ => "", threshold := mkRat 1 2, cooldown := 10,
    diff := mkRat 1 10, forward_bias := mkRat 1 25, back_bias := mkRat 3 100,
    stay_bias := mkRat 3 100, qa_mode := false, allow_non_adjacent := false,
    non_adjacent_threshold := mkRat 3 4, non_adjacent_boost := mkRat 3 20 }

/-- Witness for C9: "next" at the last slide and "previous" at slide 0,
with cooldown and debounce satisfied, both rejected. -/
theorem tryTrigger_edge_rejected_witness :
    tryTrigger cfgC9 pC9 (mkRat 10 1) "go to the next slide" ⟨2, 9⟩ ["w"] ⟨0⟩
      [.next, .prev, .goto, .first, .last] = (false, ⟨2, 9⟩, ["w"], ⟨0⟩, []) ∧
    tryTrigger cfgC9 pC9 (mkRat 10 1) "previous slide" ⟨0, 9⟩ ["w"] ⟨0⟩
      [.next, .prev, .goto, .first, .last] = (false, ⟨0, 9⟩, ["w"], ⟨0⟩, []) :=
  ⟨tryTrigger_edge_rejected cfgC9 pC9 (mkRat 10 1) "go to the next slide" ⟨2, 9⟩
      ["w"] ⟨0⟩ [.next, .prev, .goto, .first, .last]
      { action := .next, target := none } (by decide) (Or.inl ⟨rfl, by decide⟩),
   tryTrigger_edge_rejected cfgC9 pC9 (mkRat 10 1) "previous slide" ⟨0, 9⟩
      ["w"] ⟨0⟩ [.next, .prev, .goto, .first, .last]
      { action := .prev, target := none } (by decide) (Or.inr ⟨rfl, rfl⟩)⟩

/-- Trigger debounce configuration for the C10 theorem. -/
def cfgC10 : TrigCfg :=
  { trigger_cooldown_ms := mkRat 1200 1, trigger_min_words_between := 4 }

/-- Deck parameters for the C10 theorem (three slides). -/
def pC10 : MParams :=
  { numSlides := 3, titles := fun _ => "", threshold := mkRat 1 2, cooldown := 10,
    diff := mkRat 1 10, forward_bias := mkRat 1 25, back_bias := mkRat 3 100,
    stay_bias := mkRat 3 100, qa_mode := false, allow_non_adjacent := false,
    non_adjacent_threshold := mkRat 3 4, non_adjacent_boost := mkRat 3 20 }

/-- C10.  `detect_trigger` returns a Goto trigger with negative target
`-1` for "slide 0" and "go to slide 0" (it subtracts 1 from the digits
without range-checking); the caller `_try_trigger` then rejects the
out-of-range target, returning `False` with no state change and no
event. -/
theorem detectTrigger_goto_negative_target :
    detectTrigger "slide 0" = some { action := .goto, target := some (-1) } ∧
    detectTrigger "go to slide 0" = some { action := .goto, target := some (-1) } ∧
    tryTrigger cfgC10 pC10 (mkRat 10 1) "slide 0" ⟨0, 99⟩ [] ⟨0⟩ [.goto] =
      (false, ⟨0, 99⟩, [], ⟨0⟩, []) :=
  ⟨by decide, by decide, by decide⟩

end Torgal
